import Mathlib

/-!
Verification of the wikipedia-scraper repository (src/scraper.py) against its
natural-language specification.

Shallow embedding conventions:
- The Session Client retry wrapper `api_call_with_cookie_retry` is modelled as a
  function over an environment `att : Nat → Outcome α` giving the outcome of the
  i-th HTTP attempt of the wrapped call (success with a parsed body, or an
  `HTTPError` with a status code, as raised by `raise_for_status`).  The model
  tracks how many times `refresh_cookie` ran and how many attempts were made.
- HTML documents parsed by BeautifulSoup are modelled by the first-child /
  next-sibling `Forest` type below; element search (`find`, `find_all`) is
  preorder (= document order), exactly BeautifulSoup's order, and searches the
  descendants of the node it is invoked on.
- Python's `re.sub` on the cleaner's four patterns is modelled by a backtracking
  matcher for the exact regex subset those patterns use (literals, lazy `.*?`,
  `\w`, a greedy optional ` ?`, ordered alternation), scanning left to right and
  replacing each leftmost match, as `re.sub` does.  A fuel argument bounds the
  recursion depth; every recursive step shrinks `pattern-length + input-length`,
  so the fuel chosen at each call site is never exhausted.
- Machine integers do not occur (all counts are small Nats); strings are Lean
  `String` / `List Char`.
-/

/-! ## Session Client: the retry wrapper (src/scraper.py, `api_call_with_cookie_retry`) -/

/-- Outcome of one HTTP attempt of the wrapped API call: `raise_for_status`
either returns normally (the call then returns the parsed JSON body `v`) or
raises `requests.exceptions.HTTPError` with the response's status code. -/
inductive Outcome (α : Type) where
  | success (v : α)
  | httpError (code : Nat)
deriving DecidableEq

/-- Result of a call through the wrapper: a normal return (`ret (some v)` from
`return api_call(...)`, `ret none` for Python's implicit `return None` when the
`for` loop is exhausted), or `raised code` for a re-raised `HTTPError`. -/
inductive CallResult (α : Type) where
  | ret (v : Option α)
  | raised (code : Nat)
deriving DecidableEq

/-- The `for _ in range(2)` loop inside the wrapper.  `n` is the number of loop
iterations left, `i` the index of the next attempt, `r` the number of
`refresh_cookie()` calls so far, `a` the number of attempts made so far.
Returns the call result together with the final refresh and attempt counts. -/
def wrapperLoop {α : Type} (att : Nat → Outcome α) :
    Nat → Nat → Nat → Nat → CallResult α × Nat × Nat
  | 0, _, r, a => (CallResult.ret none, r, a)
  | n + 1, i, r, a =>
    match att i with
    | Outcome.success v => (CallResult.ret (some v), r, a + 1)
    | Outcome.httpError code =>
      if code = 403 then wrapperLoop att n (i + 1) (r + 1) (a + 1)
      else (CallResult.raised code, r, a + 1)

/-- Model of `api_call_with_cookie_retry`: run the two-iteration loop starting
with no attempts made and no refreshes performed. -/
def api_call_with_cookie_retry {α : Type} (att : Nat → Outcome α) :
    CallResult α × Nat × Nat :=
  wrapperLoop att 2 0 0 0

/-! ## Paragraph Cleaner (src/scraper.py, `clean_paragraph`) -/

/-- One element of the regex subset used by the cleaner's patterns. -/
inductive RElem where
  | lit (c : Char)
  | dot
  | wordc
  | optChar (c : Char)
  | lazyStar
deriving DecidableEq

/-- Python `\w` on the ASCII markers the cleaner targets: alphanumeric or
underscore. -/
def isWordChar (c : Char) : Bool :=
  c.isAlphanum || c == '_'

/-- Python whitespace for `str.strip` / `str.rstrip` (the ASCII whitespace
set). -/
def isPySpace (c : Char) : Bool :=
  c == ' ' || c == '\t' || c == '\n' || c == '\r' || c == '\x0b' || c == '\x0c'

/-- Backtracking matcher for one alternative at the current position.  Returns
the number of characters consumed by the match the Python `re` engine picks:
elements are matched in sequence, `lazyStar` (a non-greedy `.*?`) consumes as
few characters as possible, `optChar` (a greedy `c?`) prefers to consume, and
`.` never matches a newline.  The fuel strictly exceeds the recursion depth
(every call shrinks `ps.length + xs.length`), so `none` at fuel 0 is never
reached from `matchSeqTop`. -/
def matchSeq : Nat → List RElem → List Char → Option Nat
  | 0, _, _ => none
  | _ + 1, [], _ => some 0
  | _ + 1, RElem.lit _ :: _, [] => none
  | fuel + 1, RElem.lit c :: ps, x :: xs =>
    if x = c then (matchSeq fuel ps xs).map (· + 1) else none
  | _ + 1, RElem.dot :: _, [] => none
  | fuel + 1, RElem.dot :: ps, x :: xs =>
    if x = '\n' then none else (matchSeq fuel ps xs).map (· + 1)
  | _ + 1, RElem.wordc :: _, [] => none
  | fuel + 1, RElem.wordc :: ps, x :: xs =>
    if isWordChar x then (matchSeq fuel ps xs).map (· + 1) else none
  | fuel + 1, RElem.optChar _ :: ps, [] => matchSeq fuel ps []
  | fuel + 1, RElem.optChar c :: ps, x :: xs =>
    if x = c then
      match matchSeq fuel ps xs with
      | some n => some (n + 1)
      | none => matchSeq fuel ps (x :: xs)
    else matchSeq fuel ps (x :: xs)
  | fuel + 1, RElem.lazyStar :: ps, [] => matchSeq fuel ps []
  | fuel + 1, RElem.lazyStar :: ps, x :: xs =>
    match matchSeq fuel ps (x :: xs) with
    | some n => some n
    | none =>
      if x = '\n' then none
      else (matchSeq fuel (RElem.lazyStar :: ps) xs).map (· + 1)

/-- Match one alternative with sufficient fuel. -/
def matchSeqTop (ps : List RElem) (xs : List Char) : Option Nat :=
  matchSeq (ps.length + xs.length + 1) ps xs

/-- Ordered alternation: Python's `re` tries the alternatives of `(a|b|...)` in
textual order at each position and commits to the first that matches. -/
def matchAlt (alts : List (List RElem)) (xs : List Char) : Option Nat :=
  match alts with
  | [] => none
  | p :: rest =>
    match matchSeqTop p xs with
    | some n => some n
    | none => matchAlt rest xs

/-- `re.sub(pattern, repl, s)`: scan left to right; at each position substitute
the leftmost match and continue after it in the original string (after a
zero-width match Python emits the replacement and advances one character).  The
fuel equals the remaining input length plus one, so it is never exhausted. -/
def reSubAux (alts : List (List RElem)) (repl : List Char) :
    Nat → List Char → List Char
  | 0, xs => xs
  | _ + 1, [] => []
  | fuel + 1, x :: xs =>
    match matchAlt alts (x :: xs) with
    | some (n + 1) => repl ++ reSubAux alts repl fuel (xs.drop n)
    | some 0 => repl ++ x :: reSubAux alts repl fuel xs
    | none => x :: reSubAux alts repl fuel xs

/-- Top-level `re.sub` over characters. -/
def reSub (alts : List (List RElem)) (repl : List Char) (xs : List Char) :
    List Char :=
  reSubAux alts repl (xs.length + 1) xs

/-- Python `str.rstrip()` on characters. -/
def rstripL (l : List Char) : List Char :=
  (l.reverse.dropWhile isPySpace).reverse

/-- Python `str.strip()` on characters. -/
def stripL (l : List Char) : List Char :=
  rstripL (l.dropWhile isPySpace)

/-- Pattern 1 of `clean_paragraph`:
`(\/.*?ⓘ; ?|\(.*?ⓘ\)|\[.*?ⓘ|.*?ⓘ )`, replaced by the empty string. -/
def cleanerPattern1 : List (List RElem) :=
  [ [RElem.lit '/', RElem.lazyStar, RElem.lit 'ⓘ', RElem.lit ';',
     RElem.optChar ' '],
    [RElem.lit '(', RElem.lazyStar, RElem.lit 'ⓘ', RElem.lit ')'],
    [RElem.lit '[', RElem.lazyStar, RElem.lit 'ⓘ'],
    [RElem.lazyStar, RElem.lit 'ⓘ', RElem.lit ' '] ]

/-- Pattern 2 of `clean_paragraph`: `\(\/.*?;`, replaced by `(`. -/
def cleanerPattern2 : List (List RElem) :=
  [ [RElem.lit '(', RElem.lit '/', RElem.lazyStar, RElem.lit ';'] ]

/-- Pattern 3 of `clean_paragraph`: `\(.*?ⓘ;`, replaced by `(`. -/
def cleanerPattern3 : List (List RElem) :=
  [ [RElem.lit '(', RElem.lazyStar, RElem.lit 'ⓘ', RElem.lit ';'] ]

/-- Pattern 4 of `clean_paragraph`: `\[\w\]`, replaced by the empty string. -/
def cleanerPattern4 : List (List RElem) :=
  [ [RElem.lit '[', RElem.wordc, RElem.lit ']'] ]

/-- Character-level model of `WikipediaScraper.clean_paragraph`: the empty-input
guard, the four `re.sub` passes in source order, then `str.strip()`. -/
def clean_paragraph_chars (paragraph : List Char) : List Char :=
  if paragraph = [] then []
  else
    stripL
      (reSub cleanerPattern4 []
        (reSub cleanerPattern3 ['(']
          (reSub cleanerPattern2 ['(']
            (reSub cleanerPattern1 [] paragraph))))

/-- `WikipediaScraper.clean_paragraph` on Lean strings. -/
def clean_paragraph (paragraph : String) : String :=
  String.mk (clean_paragraph_chars paragraph.data)

example : clean_paragraph "Jane /dʒeɪn/ⓘ; Doe" = "Jane Doe" := by decide
example : clean_paragraph "Term[1] used" = "Term used" := by decide
example : clean_paragraph "Abc deⓘ fgh" = "fgh" := by decide
example : clean_paragraph "[[1]a]" = "[a]" := by decide
example : clean_paragraph "[a]" = "" := by decide

/-! ## Content Extractor: parsed HTML model
(src/scraper.py, `get_first_wiki_paragraph`, lines 135-169) -/

/-- A parsed HTML node sequence in first-child / next-sibling form: a forest is
a list of siblings, each either a text node (BeautifulSoup `NavigableString`)
or an element with a tag name, a `class` attribute list and a child forest. -/
inductive Forest where
  | nil
  | textNode (s : List Char) (sib : Forest)
  | elemNode (tag : String) (classes : List String) (children : Forest)
      (sib : Forest)
deriving DecidableEq

/-- An element (BeautifulSoup `Tag`) as a value: its tag name, `class`
attribute and child forest. -/
structure ETag where
  tag : String
  classes : List String
  children : Forest
deriving DecidableEq

/-- Concatenated text of a forest, in document order: this is BeautifulSoup's
`get_text()` applied to an element whose children form the forest. -/
def getTextF : Forest → List Char
  | Forest.nil => []
  | Forest.textNode s sib => s ++ getTextF sib
  | Forest.elemNode _ _ children sib => getTextF children ++ getTextF sib

/-- All elements of a forest in preorder (= document order); BeautifulSoup's
`find` / `find_all` invoked on a node iterate its descendant elements in this
order. -/
def elems : Forest → List ETag
  | Forest.nil => []
  | Forest.textNode _ sib => elems sib
  | Forest.elemNode tag classes children sib =>
    ⟨tag, classes, children⟩ :: (elems children ++ elems sib)

/-- BeautifulSoup `find(...)` with a predicate: the first matching descendant
element in document order, if any. -/
def findElem (p : ETag → Bool) (f : Forest) : Option ETag :=
  ((elems f).filter p).head?

/-- Match of `soup.find("div", class_=cls)`: a `div` whose multi-valued `class`
attribute contains `cls`. -/
def isContentDiv (cls : String) (e : ETag) : Bool :=
  e.tag == "div" && e.classes.contains cls

/-- Match of `find("p")` / `find_all("p")`. -/
def isPTag (e : ETag) : Bool :=
  e.tag == "p"

/-- Match of `find("b")`. -/
def isBTag (e : ETag) : Bool :=
  e.tag == "b"

/-- The paragraph loop of `get_first_wiki_paragraph` (lines 155-169): for each
paragraph in order, look for its first `<b>` descendant; if present with
non-empty rstripped text whose length differs from the paragraph's rstripped
text length, return the cleaned paragraph text; otherwise continue.  Falls
through to the empty string. -/
def firstQualifying : List ETag → String
  | [] => ""
  | p :: rest =>
    match findElem isBTag p.children with
    | some b =>
      let b_tag_text := rstripL (getTextF b.children)
      let p_tag_text := rstripL (getTextF p.children)
      if b_tag_text ≠ [] ∧ b_tag_text.length ≠ p_tag_text.length then
        String.mk (clean_paragraph_chars p_tag_text)
      else firstQualifying rest
    | none => firstQualifying rest

/-- The paragraph collection step of `get_first_wiki_paragraph` (lines
137-151): the `mw-content-ltr` container, else the `mw-content-rtl` container,
else the whole document; then `find_all("p")` within the chosen scope. -/
def collectParagraphs (doc : Forest) : List ETag :=
  let main_content :=
    match findElem (isContentDiv "mw-content-ltr") doc with
    | some d => some d
    | none => findElem (isContentDiv "mw-content-rtl") doc
  match main_content with
  | some d => (elems d.children).filter isPTag
  | none => (elems doc).filter isPTag

/-- Model of `WikipediaScraper.get_first_wiki_paragraph` on a parsed document
(the HTTP fetch and parse are environment steps; this is everything from line
135 on). -/
def get_first_wiki_paragraph (doc : Forest) : String :=
  firstQualifying (collectParagraphs doc)

/-! ## Aggregator (src/scraper.py, `get_leaders_data`) -/

/-- A JSON-ish field value of a leader record: a string, or an opaque
pass-through value this system never inspects. -/
inductive JValue where
  | str (s : String)
  | other (n : Nat)
deriving DecidableEq

/-- A leader record: an insertion-ordered mapping from field name to value,
as Python `dict`. -/
abbrev Leader := List (String × JValue)

/-- Python `d[k]` lookup (first binding of `k`; keys are unique in a dict). -/
def lookupField (k : String) : Leader → Option JValue
  | [] => none
  | (k', v) :: rest => if k' = k then some v else lookupField k rest

/-- Python `d[k] = v`: replace the existing binding in place, else append. -/
def setField (k : String) (v : JValue) : Leader → Leader
  | [] => [(k, v)]
  | (k', v') :: rest =>
    if k' = k then (k, v) :: rest else (k', v') :: setField k v rest

/-- Environment of one full run, with every network fetch already resolved:
the country list returned by `/countries`, the leader list per country from
`/leaders`, and the parsed page behind each `wikipedia_url`. -/
structure Env where
  countries : List String
  leadersOf : String → List Leader
  pageOf : String → Forest

/-- The body of the inner loop (lines 70-73): read `leader["wikipedia_url"]`
(a missing or non-string value makes the fetch raise, aborting the run, hence
`none`) and assign `leader["wikipedia_intro"]` to the extracted paragraph. -/
def enrichLeader (env : Env) (leader : Leader) : Option Leader :=
  match lookupField "wikipedia_url" leader with
  | some (JValue.str url) =>
    some (setField "wikipedia_intro"
      (JValue.str (get_first_wiki_paragraph (env.pageOf url))) leader)
  | _ => none

/-- The inner loop over one country's leaders. -/
def enrichLeaders (env : Env) : List Leader → Option (List Leader)
  | [] => some []
  | l :: rest =>
    match enrichLeader env l, enrichLeaders env rest with
    | some l2, some r2 => some (l2 :: r2)
    | _, _ => none

/-- The outer loop over countries (lines 61-73), building
`self.leaders_data` country by country. -/
def buildLeadersData (env : Env) :
    List String → Option (List (String × List Leader))
  | [] => some []
  | c :: rest =>
    match enrichLeaders env (env.leadersOf c), buildLeadersData env rest with
    | some ls, some r => some ((c, ls) :: r)
    | _, _ => none

/-- Model of `WikipediaScraper.get_leaders_data`: the final aggregate of a run
that completes, `none` when the run aborts. -/
def get_leaders_data (env : Env) : Option (List (String × List Leader)) :=
  buildLeadersData env env.countries

/-! ## Spec-side definitions for the lead-paragraph refinement claim (C3) -/

/-- Modelled from the spec's words (section 4.2, step 3): a paragraph qualifies
iff it CONTAINS (existentially) a bold span whose trimmed text is non-empty and
strictly shorter than the paragraph's trimmed text. -/
def specQualifies (p : ETag) : Bool :=
  ((elems p.children).filter isBTag).any (fun b =>
    !(rstripL (getTextF b.children)).isEmpty &&
      decide ((rstripL (getTextF b.children)).length <
        (rstripL (getTextF p.children)).length))

/-- Modelled from the spec's words (section 4.2, step 4): return the cleaned
text of the first qualifying paragraph, else the empty string. -/
def specFirstQualifying : List ETag → String
  | [] => ""
  | p :: rest =>
    if specQualifies p then
      String.mk (clean_paragraph_chars (rstripL (getTextF p.children)))
    else specFirstQualifying rest

/-- The spec's lead-paragraph selection over a whole document (same container
logic as the code, spec's qualification predicate). -/
def specLeadParagraph (doc : Forest) : String :=
  specFirstQualifying (collectParagraphs doc)

/-- Amended paragraph loop: as the code, with the length-difference test
written as a strict inequality on the first bold span's trimmed text. -/
def amendedFirstQualifying : List ETag → String
  | [] => ""
  | p :: rest =>
    match findElem isBTag p.children with
    | some b =>
      let b_tag_text := rstripL (getTextF b.children)
      let p_tag_text := rstripL (getTextF p.children)
      if b_tag_text ≠ [] ∧ b_tag_text.length < p_tag_text.length then
        String.mk (clean_paragraph_chars p_tag_text)
      else amendedFirstQualifying rest
    | none => amendedFirstQualifying rest

/-- Amended lead-paragraph selection: first-bold-span test with strict
inequality. -/
def amendedLeadParagraph (doc : Forest) : String :=
  amendedFirstQualifying (collectParagraphs doc)

/-- Paragraph whose first bold span is empty (`<b></b>`) while a later bold
span (`<b>c</b>`) qualifies: children of the `<p>` in `cexDocC3`. -/
def cexParagraphChildren : Forest :=
  Forest.elemNode "b" [] Forest.nil
    (Forest.textNode ['a', 'b']
      (Forest.elemNode "b" [] (Forest.textNode ['c'] Forest.nil)
        (Forest.textNode ['d'] Forest.nil)))

/-- Document `<div class="mw-content-ltr"><p><b></b>ab<b>c</b>d</p></div>`. -/
def cexDocC3 : Forest :=
  Forest.elemNode "div" ["mw-content-ltr"]
    (Forest.elemNode "p" [] cexParagraphChildren Forest.nil)
    Forest.nil

example : get_first_wiki_paragraph cexDocC3 = "" := by decide
example : specLeadParagraph cexDocC3 = "abcd" := by decide

/-! ## Helper lemmas: bold-span text is an infix of its paragraph's text -/

/-- Dropping a prefix by a predicate never lengthens a list. -/
theorem length_dropWhile_le_self (p : Char → Bool) (l : List Char) :
    (l.dropWhile p).length ≤ l.length := by
  induction l with
  | nil => simp
  | cons x xs ih =>
    by_cases h : p x
    · simpa [List.dropWhile_cons, h] using Nat.le_succ_of_le ih
    · simp [List.dropWhile_cons, h]

/-- Appending on the right never shortens a `dropWhile`. -/
theorem length_dropWhile_le_append (p : Char → Bool) (a v : List Char) :
    (a.dropWhile p).length ≤ ((a ++ v).dropWhile p).length := by
  induction a with
  | nil => simp
  | cons x xs ih =>
    by_cases h : p x
    · simpa [List.dropWhile_cons, h] using ih
    · simp [List.dropWhile_cons, h]

/-- `dropWhile` length is monotone under embedding the list as an infix. -/
theorem length_dropWhile_le_infix (p : Char → Bool) (a u v : List Char) :
    (a.dropWhile p).length ≤ ((u ++ (a ++ v)).dropWhile p).length := by
  induction u with
  | nil => simpa using length_dropWhile_le_append p a v
  | cons x xs ih =>
    by_cases h : p x
    · simpa [List.dropWhile_cons, h] using ih
    · rw [List.cons_append, List.dropWhile_cons, if_neg h]
      have h1 := length_dropWhile_le_self p a
      simp only [List.length_cons, List.length_append]
      omega

/-- `rstripL` length is monotone under embedding the list as an infix. -/
theorem length_rstripL_le_infix (a u v : List Char) :
    (rstripL a).length ≤ (rstripL (u ++ a ++ v)).length := by
  simp only [rstripL, List.length_reverse]
  have h := length_dropWhile_le_infix isPySpace a.reverse v.reverse u.reverse
  simpa [List.reverse_append, List.append_assoc] using h

/-- The text of any element of a forest is an infix of the forest's text. -/
theorem getTextF_infix_of_mem_elems (e : ETag) (f : Forest)
    (h : e ∈ elems f) :
    ∃ u v, getTextF f = u ++ getTextF e.children ++ v := by
  induction f with
  | nil => simp [elems] at h
  | textNode s sib ih =>
    obtain ⟨u, v, huv⟩ := ih (by simpa [elems] using h)
    exact ⟨s ++ u, v, by simp [getTextF, huv, List.append_assoc]⟩
  | elemNode tag classes children sib ihc ihs =>
    simp only [elems, List.mem_cons, List.mem_append] at h
    rcases h with h | h | h
    · exact ⟨[], getTextF sib, by simp [getTextF, h]⟩
    · obtain ⟨u, v, huv⟩ := ihc h
      exact ⟨u, v ++ getTextF sib, by simp [getTextF, huv, List.append_assoc]⟩
    · obtain ⟨u, v, huv⟩ := ihs h
      exact ⟨getTextF children ++ u, v,
        by simp [getTextF, huv, List.append_assoc]⟩

/-- The elements below an element of a forest are elements of the forest. -/
theorem elems_children_subset (e : ETag) (f : Forest) (h : e ∈ elems f) :
    ∀ b ∈ elems e.children, b ∈ elems f := by
  induction f with
  | nil => simp [elems] at h
  | textNode s sib ih =>
    intro b hb
    simpa [elems] using ih (by simpa [elems] using h) b hb
  | elemNode tag classes children sib ihc ihs =>
    intro b hb
    simp only [elems, List.mem_cons, List.mem_append] at h ⊢
    rcases h with h | h | h
    · subst h
      exact Or.inr (Or.inl hb)
    · exact Or.inr (Or.inl (ihc h b hb))
    · exact Or.inr (Or.inr (ihs h b hb))

/-- An element returned by `findElem` is an element of the searched forest. -/
theorem mem_elems_of_findElem (p : ETag → Bool) (f : Forest) (e : ETag)
    (h : findElem p f = some e) : e ∈ elems f := by
  rcases List.head?_eq_some_iff.mp h with ⟨ys, hys⟩
  have : e ∈ (elems f).filter p := by
    rw [hys]; exact List.mem_cons_self e ys
  exact (List.mem_filter.mp this).1

/-- First bold span of a paragraph: its trimmed text is never longer than the
paragraph's trimmed text. -/
theorem bold_text_le_paragraph_text (p b : ETag)
    (h : findElem isBTag p.children = some b) :
    (rstripL (getTextF b.children)).length ≤
      (rstripL (getTextF p.children)).length := by
  have hb : b ∈ elems p.children := mem_elems_of_findElem isBTag p.children b h
  obtain ⟨u, v, huv⟩ := getTextF_infix_of_mem_elems b p.children hb
  rw [huv]
  exact length_rstripL_le_infix (getTextF b.children) u v

/-- The paragraph loop with the code's `!=` length test equals the loop with
the strict `<` test: the first bold span's trimmed text can never be longer
than its paragraph's trimmed text. -/
theorem firstQualifying_eq_amendedFirstQualifying (l : List ETag) :
    firstQualifying l = amendedFirstQualifying l := by
  induction l with
  | nil => rfl
  | cons p rest ih =>
    simp only [firstQualifying, amendedFirstQualifying]
    cases hfb : findElem isBTag p.children with
    | none => exact ih
    | some b =>
      dsimp only
      have hle := bold_text_le_paragraph_text p b hfb
      by_cases hc : rstripL (getTextF b.children) ≠ [] ∧
          (rstripL (getTextF b.children)).length <
            (rstripL (getTextF p.children)).length
      · rw [if_pos ⟨hc.1, Nat.ne_of_lt hc.2⟩, if_pos hc]
      · rw [if_neg (fun hx => hc ⟨hx.1, Nat.lt_of_le_of_ne hle hx.2⟩),
          if_neg hc]
        exact ih

/-! ## Helper lemmas: aggregator -/

/-- Looking up a field right after setting it yields the set value. -/
theorem lookupField_setField_self (k : String) (v : JValue) (l : Leader) :
    lookupField k (setField k v l) = some v := by
  induction l with
  | nil => simp [setField, lookupField]
  | cons kv rest ih =>
    by_cases h : kv.1 = k
    · simp [setField, lookupField, h]
    · simp [setField, lookupField, h, ih]

/-- Every record produced by the inner enrichment loop carries a string-valued
`wikipedia_intro` field. -/
theorem enrichLeaders_intro_assigned (env : Env) (xs : List Leader)
    (ys : List Leader) (h : enrichLeaders env xs = some ys) :
    ∀ l ∈ ys, ∃ s, lookupField "wikipedia_intro" l = some (JValue.str s) := by
  induction xs generalizing ys with
  | nil =>
    simp only [enrichLeaders, Option.some.injEq] at h
    subst h
    intro l hl
    simp at hl
  | cons x rest ih =>
    simp only [enrichLeaders] at h
    cases h1 : enrichLeader env x with
    | none => rw [h1] at h; simp at h
    | some x2 =>
      cases h2 : enrichLeaders env rest with
      | none => rw [h1, h2] at h; simp at h
      | some r2 =>
        rw [h1, h2] at h
        simp only [Option.some.injEq] at h
        subst h
        intro l hl
        rcases List.mem_cons.mp hl with hl | hl
        · subst hl
          simp only [enrichLeader] at h1
          cases hurl : lookupField "wikipedia_url" x with
          | none => rw [hurl] at h1; simp at h1
          | some jv =>
            cases jv with
            | str url =>
              rw [hurl] at h1
              simp only [Option.some.injEq] at h1
              subst h1
              exact ⟨_, lookupField_setField_self _ _ x⟩
            | other n => rw [hurl] at h1; simp at h1
        · exact ih r2 h2 l hl

/-! ## Claim theorems -/

/-- C1: the spec claims a 403 on the retried call surfaces as `ApiError{403}`
with no second token refresh; the code instead refreshes the cookie a second
time after the retry's 403 and then falls out of the `for` loop, returning
`None`.  Evaluation at the failing input (both attempts return 403): the
wrapper returns `None` (`ret none`), having performed 2 refreshes and 2
attempts (no third attempt). -/
theorem C1_double_403_returns_none_after_two_refreshes :
    api_call_with_cookie_retry
        (fun _ => Outcome.httpError 403 : Nat → Outcome Nat) =
      (CallResult.ret none, 2, 2) := by
  decide

/-- C2: a 403 on the first attempt followed by a 2xx on the retry performs
exactly one token refresh and exactly one retry (2 attempts in total) and
returns the parsed body of the successful retry. -/
theorem C2_403_then_success_returns_body {α : Type} (v : α)
    (att : Nat → Outcome α) (h0 : att 0 = Outcome.httpError 403)
    (h1 : att 1 = Outcome.success v) :
    api_call_with_cookie_retry att = (CallResult.ret (some v), 1, 2) := by
  simp [api_call_with_cookie_retry, wrapperLoop, h0, h1]

/-- C2 witness: concrete attempt sequence 403 then success 7. -/
theorem C2_403_then_success_returns_body_witness :
    api_call_with_cookie_retry
        (fun i => if i = 0 then Outcome.httpError 403
          else Outcome.success 7 : Nat → Outcome Nat) =
      (CallResult.ret (some 7), 1, 2) :=
  C2_403_then_success_returns_body 7 _ rfl rfl

/-- C5: a non-403 non-2xx first attempt is re-raised immediately: no token
refresh, no retry (1 attempt in total), and the call fails carrying that
status code. -/
theorem C5_non403_raises_immediately {α : Type} (att : Nat → Outcome α)
    (code : Nat) (h0 : att 0 = Outcome.httpError code) (hne : code ≠ 403) :
    api_call_with_cookie_retry att = (CallResult.raised code, 0, 1) := by
  simp [api_call_with_cookie_retry, wrapperLoop, h0, hne]

/-- C5 witness: concrete first attempt failing with 500. -/
theorem C5_non403_raises_immediately_witness :
    api_call_with_cookie_retry
        (fun _ => Outcome.httpError 500 : Nat → Outcome Nat) =
      (CallResult.raised 500, 0, 1) :=
  C5_non403_raises_immediately _ 500 rfl (by decide)

/-- C3 counterexample: in `cexDocC3` the single paragraph's FIRST bold span is
empty while a LATER bold span has non-empty trimmed text strictly shorter than
the paragraph's; the spec's "contains a bold span" selection picks that
paragraph (yielding "abcd"), but the code consults only `paragraph.find("b")`
— the first bold span — and returns the empty string. -/
theorem C3_counterexample_later_bold_span_ignored :
    get_first_wiki_paragraph cexDocC3 ≠ specLeadParagraph cexDocC3 ∧
      get_first_wiki_paragraph cexDocC3 = "" ∧
      specLeadParagraph cexDocC3 = "abcd" := by
  decide

/-- C3 (amended): a paragraph is selected as the lead paragraph iff its FIRST
bold span (in document order) has non-empty trimmed text strictly shorter than
the paragraph's trimmed text (bold spans after the first are not consulted); a
paragraph whose entire content is that bold span is skipped and the next
qualifying paragraph in document order, if any, is chosen instead. -/
theorem C3_amended_first_bold_span_selection (doc : Forest) :
    get_first_wiki_paragraph doc = amendedLeadParagraph doc :=
  firstQualifying_eq_amendedFirstQualifying (collectParagraphs doc)

/-- Every country entry of a completed run's aggregate holds only records with
a string-valued `wikipedia_intro` field. -/
theorem buildLeadersData_intro_assigned (env : Env) (cs : List String)
    (res : List (String × List Leader)) (h : buildLeadersData env cs = some res) :
    ∀ c ls, (c, ls) ∈ res → ∀ l ∈ ls,
      ∃ s, lookupField "wikipedia_intro" l = some (JValue.str s) := by
  induction cs generalizing res with
  | nil =>
    simp only [buildLeadersData, Option.some.injEq] at h
    subst h
    intro c ls hmem
    simp at hmem
  | cons c0 rest ih =>
    simp only [buildLeadersData] at h
    cases h1 : enrichLeaders env (env.leadersOf c0) with
    | none => rw [h1] at h; simp at h
    | some ls0 =>
      cases h2 : buildLeadersData env rest with
      | none => rw [h1, h2] at h; simp at h
      | some r =>
        rw [h1, h2] at h
        simp only [Option.some.injEq] at h
        subst h
        intro c ls hmem l hl
        rcases List.mem_cons.mp hmem with hmem | hmem
        · injection hmem with hc hls
          subst hls
          exact enrichLeaders_intro_assigned env (env.leadersOf c0) _ h1 l hl
        · exact ih r h2 c ls hmem l hl

/-- C4: in the aggregate of a completed run, every leader record of every
country carries a `wikipedia_intro` field whose value is a string (possibly
empty), never absent: the enrichment loop assigns it to each leader. -/
theorem C4_every_leader_has_biography (env : Env)
    (res : List (String × List Leader))
    (hres : get_leaders_data env = some res) (c : String) (ls : List Leader)
    (hmem : (c, ls) ∈ res) (l : Leader) (hl : l ∈ ls) :
    ∃ s, lookupField "wikipedia_intro" l = some (JValue.str s) :=
  buildLeadersData_intro_assigned env env.countries res hres c ls hmem l hl

/-- Environment of a one-country, one-leader fixture run. -/
def witEnv : Env where
  countries := ["be"]
  leadersOf := fun _ =>
    [[("first_name", JValue.str "X"), ("wikipedia_url", JValue.str "u")]]
  pageOf := fun _ => cexDocC3

/-- C4 witness: the fixture run's single leader record has a string-valued
`wikipedia_intro` field. -/
theorem C4_every_leader_has_biography_witness :
    ∃ s, lookupField "wikipedia_intro"
        [("first_name", JValue.str "X"), ("wikipedia_url", JValue.str "u"),
          ("wikipedia_intro", JValue.str "")] = some (JValue.str s) :=
  C4_every_leader_has_biography witEnv
    [("be", [[("first_name", JValue.str "X"),
      ("wikipedia_url", JValue.str "u"),
      ("wikipedia_intro", JValue.str "")]])]
    (by decide) "be"
    [[("first_name", JValue.str "X"), ("wikipedia_url", JValue.str "u"),
      ("wikipedia_intro", JValue.str "")]]
    (by decide)
    [("first_name", JValue.str "X"), ("wikipedia_url", JValue.str "u"),
      ("wikipedia_intro", JValue.str "")]
    (by decide)

/-- C6: on a document with zero paragraph elements anywhere, the extraction
step returns the empty string (whichever container branch is taken); the
embedding is a total function, so no exception is modelled or possible. -/
theorem C6_no_paragraphs_returns_empty (doc : Forest)
    (h : (elems doc).filter isPTag = []) :
    get_first_wiki_paragraph doc = "" := by
  have hall := List.filter_eq_nil_iff.mp h
  unfold get_first_wiki_paragraph collectParagraphs
  cases hltr : findElem (isContentDiv "mw-content-ltr") doc with
  | some d =>
    dsimp only
    have hd : d ∈ elems doc :=
      mem_elems_of_findElem (isContentDiv "mw-content-ltr") doc d hltr
    have hnil : (elems d.children).filter isPTag = [] :=
      List.filter_eq_nil_iff.mpr
        (fun b hb => hall b (elems_children_subset d doc hd b hb))
    rw [hnil]
    rfl
  | none =>
    cases hrtl : findElem (isContentDiv "mw-content-rtl") doc with
    | some d =>
      dsimp only
      have hd : d ∈ elems doc :=
        mem_elems_of_findElem (isContentDiv "mw-content-rtl") doc d hrtl
      have hnil : (elems d.children).filter isPTag = [] :=
        List.filter_eq_nil_iff.mpr
          (fun b hb => hall b (elems_children_subset d doc hd b hb))
      rw [hnil]
      rfl
    | none =>
      dsimp only
      rw [h]
      rfl

/-- C6 witness: a document that is a bare text node has no paragraphs and
extracts to the empty string. -/
theorem C6_no_paragraphs_returns_empty_witness :
    get_first_wiki_paragraph (Forest.textNode ['x'] Forest.nil) = "" :=
  C6_no_paragraphs_returns_empty (Forest.textNode ['x'] Forest.nil) (by decide)

/-- C7 counterexample: the Cleaner is not idempotent on every input: removing
the inner footnote marker of `"[[1]a]"` creates the new marker `"[a]"`, which
a second application removes. -/
theorem C7_counterexample_not_idempotent :
    clean_paragraph (clean_paragraph "[[1]a]") ≠ clean_paragraph "[[1]a]" := by
  decide

/-- C7 (amended): the Cleaner is idempotent on already-clean text — whenever
one application changes nothing, a second application changes nothing either
(in general a second application can make further changes). -/
theorem C7_amended_idempotent_on_clean_text (s : String)
    (h : clean_paragraph s = s) :
    clean_paragraph (clean_paragraph s) = clean_paragraph s := by
  rw [h]
  exact h

/-- C7 witness: `"abc"` is already clean. -/
theorem C7_amended_idempotent_on_clean_text_witness :
    clean_paragraph (clean_paragraph "abc") = clean_paragraph "abc" :=
  C7_amended_idempotent_on_clean_text "abc" (by decide)

/-- C8: the Cleaner maps the spec's worked examples to their stated outputs. -/
theorem C8_worked_examples :
    clean_paragraph "Jane /dʒeɪn/ⓘ; Doe" = "Jane Doe" ∧
      clean_paragraph "Term[1] used" = "Term used" := by
  decide

/-- C9: the first substitution pattern has the alternation branch `.*?ⓘ `
(lazy dot-star, pronunciation icon, space), so a run of delimiter-free text
ending in the icon and a space is deleted: `"Abc deⓘ fgh"` cleans to
`"fgh"`. -/
theorem C9_lazy_prefix_branch_deletes_undelimited_run :
    [RElem.lazyStar, RElem.lit 'ⓘ', RElem.lit ' '] ∈ cleanerPattern1 ∧
      clean_paragraph "Abc deⓘ fgh" = "fgh" := by
  decide

/-- C10: when a content container is found (left-to-right, or right-to-left
with no left-to-right one) but holds no paragraph elements, extraction returns
the empty string without falling back to the whole document. -/
theorem C10_empty_container_no_fallback (doc : Forest) (d : ETag)
    (hfound : findElem (isContentDiv "mw-content-ltr") doc = some d ∨
      (findElem (isContentDiv "mw-content-ltr") doc = none ∧
        findElem (isContentDiv "mw-content-rtl") doc = some d))
    (hempty : (elems d.children).filter isPTag = []) :
    get_first_wiki_paragraph doc = "" := by
  unfold get_first_wiki_paragraph collectParagraphs
  rcases hfound with h | ⟨h1, h2⟩
  · rw [h]
    dsimp only
    rw [hempty]
    rfl
  · rw [h1, h2]
    dsimp only
    rw [hempty]
    rfl

/-- Document with an empty `mw-content-ltr` container and a qualifying
paragraph OUTSIDE it: `<div class="mw-content-ltr"></div><p><b>X</b>Y</p>`. -/
def doc10 : Forest :=
  Forest.elemNode "div" ["mw-content-ltr"] Forest.nil
    (Forest.elemNode "p" []
      (Forest.elemNode "b" [] (Forest.textNode ['X'] Forest.nil)
        (Forest.textNode ['Y'] Forest.nil))
      Forest.nil)

/-- C10 witness: `doc10` extracts to the empty string even though a qualifying
paragraph exists outside the found (empty) container. -/
theorem C10_empty_container_no_fallback_witness :
    get_first_wiki_paragraph doc10 = "" :=
  C10_empty_container_no_fallback doc10
    ⟨"div", ["mw-content-ltr"], Forest.nil⟩ (Or.inl (by decide)) (by decide)
